import Mathlib

set_option maxRecDepth 100000

/-!
Verification development for the lane-finding pipeline in `process_video.py`.

The Python source is shallowly embedded here:
* binary masks are functions `ℕ → ℕ → ℕ` (row, column ↦ 0/1) with explicit
  height/width parameters;
* Python/numpy floats are modelled as exact rationals `ℚ`;
* `int(...)` truncation and numpy slice normalisation are modelled explicitly
  (`pyInt`, `npNorm`, `npSlice`);
* code that can raise a Python exception is modelled with `Option`, `none`
  standing for the raised error.
-/

namespace ProcessVideo

/-- Python `int()` applied to a float: truncation toward zero. -/
def pyInt (q : ℚ) : ℤ :=
  if 0 ≤ q then ⌊q⌋ else -⌊-q⌋

/-- Numpy slice-bound normalisation for an axis of length `n`:
a negative bound counts from the end, and bounds are clipped to `[0, n]`. -/
def npNorm (n : ℕ) (i : ℤ) : ℕ :=
  if i < 0 then (i + n).toNat else min i.toNat n

/-- The list of indices selected by the numpy slice `a[lo:hi]`
on an axis of length `n`. -/
def npSlice (n : ℕ) (lo hi : ℤ) : List ℕ :=
  List.range' (npNorm n lo) (npNorm n hi - npNorm n lo)

/-- Index of the first maximal element, `np.argmax` (index 0 on an
all-equal list, first occurrence on ties), via an accumulator. -/
def argmaxAux : List ℕ → ℕ → ℕ → ℕ → ℕ
  | [], _, bi, _ => bi
  | v :: t, i, bi, bv => if bv < v then argmaxAux t (i + 1) i v else argmaxAux t (i + 1) bi bv

/-- `np.argmax` over a list of non-negative vote counts. -/
def argmaxList (l : List ℕ) : ℕ := argmaxAux l 0 0 0

/-- `np.max` over a list of non-negative vote counts. -/
def maxList (l : List ℕ) : ℕ := l.foldl max 0

/-! ## LineDetector (lines 248-435)

Class attributes `x_size = 30` (half window width) and `y_step = 100`
(vertical stride) appear below as the literals `30` and `100`. -/

/-- `np.sum(image[ylo:yhi, xlo:xhi])` over a 0/1 mask of size `h × w`. -/
def windowSum (img : ℕ → ℕ → ℕ) (h w : ℕ) (ylo yhi xlo xhi : ℤ) : ℕ :=
  ((npSlice h ylo yhi).map (fun y => ((npSlice w xlo xhi).map (fun x => img y x)).sum)).sum

/-- The vote array `arr` of `sliding_window_step` (lines 282-289): for every
offset `i - r` with `i < 2r`, the mask pixel count of the band
`image[max(end_y-100,0):end_y, int(x+o-30):int(x+o+30)]`. -/
def votes (img : ℕ → ℕ → ℕ) (h w : ℕ) (start_x : ℚ) (end_y : ℤ) (r : ℕ) : List ℕ :=
  (List.range (2 * r)).map (fun i =>
    windowSum img h w (max (end_y - 100) 0) end_y
      (pyInt (start_x + ((i : ℤ) - (r : ℤ) : ℤ) - 30))
      (pyInt (start_x + ((i : ℤ) - (r : ℤ) : ℤ) + 30)))

/-- `LineDetector.sliding_window_step` (lines 261-297): one step of the
sliding window.  Mirrors line 292: the branch keeps `start_x` when
`np.argmax(arr) < 20`, i.e. when the INDEX of the first maximal vote is
below 20; otherwise the next x is the peak offset added to `start_x`.
The second component is the next y, `np.max((end_y - self.y_step, 0))`. -/
def sliding_window_step (img : ℕ → ℕ → ℕ) (h w : ℕ) (start_x : ℚ) (end_y : ℤ)
    (x_search_region : ℕ) : ℚ × ℤ :=
  (if argmaxList (votes img h w start_x end_y x_search_region) < 20 then start_x
   else ((argmaxList (votes img h w start_x end_y x_search_region) : ℚ)
         - (x_search_region : ℚ) + start_x),
   max (end_y - 100) 0)

/-- The pixel collection of one window of `sliding_window_one_side`
(lines 338-343): all coordinates of value-1 cells of
`image[next_y:cur_y, next_x-30:next_x+30]`, each shifted by the window
origin exactly as the Python does (column offset `next_x - 30` and row
offset `next_y` are added to the local indices of the sliced array). -/
def windowPixels (img : ℕ → ℕ → ℕ) (h w : ℕ) (next_x : ℚ) (next_y cur_y : ℤ) :
    List (ℚ × ℚ) :=
  (npSlice h next_y cur_y).flatMap (fun y =>
    (npSlice w (pyInt (next_x - 30)) (pyInt (next_x + 30))).filterMap (fun x =>
      if img y x = 1 then
        some (((x : ℚ) - (npNorm w (pyInt (next_x - 30)) : ℚ)) + (next_x - 30),
              ((y : ℚ) - (npNorm h next_y : ℚ)) + (next_y : ℚ))
      else none))

/-- One iteration of the `while current_step_y > 0` loop of
`sliding_window_one_side`: the expected x and search radius used
(lines 331-335), the current y, and the pixels collected in the window. -/
structure WindowStep where
  sx : ℚ
  r : ℕ
  y : ℤ
  pixels : List (ℚ × ℚ)
deriving DecidableEq, Repr

/-- The `while current_step_y > 0` loop of `sliding_window_one_side`
(lines 328-349), realised by structural recursion on a fuel that bounds the
iteration count (each iteration replaces `y` by `max (y - 100) 0`, so
`y.toNat` iterations always suffice); the loop guard `0 < cur_y` is
identical to the source's `current_step_y > 0`.  With a prior-frame
function `f` the expected x of each step is `f cur_y` and the search
radius is 50, otherwise the previous step's x and the default radius 100
are used (lines 330-335). -/
def oneSideAux (img : ℕ → ℕ → ℕ) (h w : ℕ) (func : Option (ℤ → ℚ)) :
    ℕ → ℚ → ℤ → List WindowStep
  | 0, _, _ => []
  | n + 1, cur_x, cur_y =>
    if 0 < cur_y then
      let sx : ℚ := match func with | some f => f cur_y | none => cur_x
      let r : ℕ := match func with | some _ => 50 | none => 100
      let next := sliding_window_step img h w sx cur_y r
      ⟨sx, r, cur_y, windowPixels img h w next.1 next.2 cur_y⟩ ::
        oneSideAux img h w func n next.1 next.2
    else []

/-- The step trace of `sliding_window_one_side` started at
`current_step_y = image.shape[0]` (line 322). -/
def oneSideSteps (img : ℕ → ℕ → ℕ) (h w : ℕ) (start_x : ℚ) (func : Option (ℤ → ℚ)) :
    List WindowStep :=
  oneSideAux img h w func (h : ℤ).toNat start_x (h : ℤ)

/-- `LineDetector.sliding_window_one_side` (lines 299-351): the
concatenation of the pixels of all windows, as `(x, y)` coordinate pairs
(the Python keeps the two parallel arrays `indicies_x`, `indicies_y`). -/
def sliding_window_one_side (img : ℕ → ℕ → ℕ) (h w : ℕ) (start_x : ℚ)
    (func : Option (ℤ → ℚ)) : List (ℚ × ℚ) :=
  (oneSideSteps img h w start_x func).flatMap WindowStep.pixels

/-- `np.polyfit(us, vs, 2)`: ordinary least-squares quadratic fit of
`vs` against `us`, via the normal equations and Cramer's rule.
`np.polyfit` raises `TypeError("expected non-empty vector for x")` on an
empty input, modelled as `none`.  A rank-deficient system (determinant 0)
is resolved by numpy's `lstsq`; with the total field division of `ℚ` the
coefficients degenerate to 0 there, a branch no claim exercises. -/
def polyfit2 (us vs : List ℚ) : Option (ℚ × ℚ × ℚ) :=
  if us.length = 0 then none else
  let s0 : ℚ := us.length
  let s1 := us.sum
  let s2 := (us.map (fun u => u ^ 2)).sum
  let s3 := (us.map (fun u => u ^ 3)).sum
  let s4 := (us.map (fun u => u ^ 4)).sum
  let t0 := vs.sum
  let t1 := (List.zipWith (fun u v => u * v) us vs).sum
  let t2 := (List.zipWith (fun u v => u ^ 2 * v) us vs).sum
  let det := s4 * (s2 * s0 - s1 * s1) - s3 * (s3 * s0 - s2 * s1) + s2 * (s3 * s1 - s2 * s2)
  let da := t2 * (s2 * s0 - s1 * s1) - s3 * (t1 * s0 - t0 * s1) + s2 * (t1 * s1 - t0 * s2)
  let db := s4 * (t1 * s0 - t0 * s1) - t2 * (s3 * s0 - s2 * s1) + s2 * (s3 * t0 - s2 * t1)
  let dc := s4 * (s2 * t0 - s1 * t1) - s3 * (s3 * t0 - s1 * t2) + t2 * (s3 * s1 - s2 * s2)
  some (da / det, db / det, dc / det)

/-- `LineDetector.get_starting_points_previous` (lines 395-409): fits
`np.polyfit(points[1], points[0], 2)` on the previous frame's points
(stored here as `(x, y)` pairs) and returns the closure
`lambda y: a*y**2 + b*y + c`. -/
def get_starting_points_previous (points : List (ℚ × ℚ)) : Option (ℤ → ℚ) :=
  (polyfit2 (points.map Prod.snd) (points.map Prod.fst)).map
    (fun cf y => cf.1 * (y : ℚ) ^ 2 + cf.2.1 * (y : ℚ) + cf.2.2)

/-- One column of `histogram = np.sum(image[image.shape[0]/2:, :], axis=0)`
(line 427; Python 2 integer division for `shape[0]/2`). -/
def histogramCol (img : ℕ → ℕ → ℕ) (h : ℕ) (x : ℕ) : ℕ :=
  ((List.range' (h / 2) (h - h / 2)).map (fun y => img y x)).sum

/-- `sliding_peaks[i] = np.sum(histogram[i:(i + 2*x_region)])`
(lines 430-431), the slice clipped at the image width. -/
def slidingPeak (img : ℕ → ℕ → ℕ) (h w : ℕ) (x_region : ℕ) (i : ℕ) : ℕ :=
  ((npSlice w (i : ℤ) ((i : ℤ) + 2 * x_region)).map (fun j => histogramCol img h j)).sum

/-- `LineDetector.get_starting_points_histogram` (lines 411-435): the left
seed is `np.argmax(sliding_peaks[0:w/2])` and the right seed is
`np.argmax(sliding_peaks[w/2:-1]) + w/2`. -/
def get_starting_points_histogram (img : ℕ → ℕ → ℕ) (h w : ℕ) (x_region : ℕ) : ℕ × ℕ :=
  let peaks := (List.range w).map (slidingPeak img h w x_region)
  (argmaxList (peaks.take (w / 2)),
   argmaxList ((peaks.drop (w / 2)).dropLast) + w / 2)

/-- `LineDetector.sliding_window` (lines 353-393): without previous points,
seed both sides from the histogram; with previous points, build the polyfit
closures, seed at `func(720)` and run the prior-guided search.  `none`
models the `np.polyfit` error on empty previous points. -/
def sliding_window (img : ℕ → ℕ → ℕ) (h w : ℕ)
    (l_points_prev r_points_prev : Option (List (ℚ × ℚ))) :
    Option (List (ℚ × ℚ) × List (ℚ × ℚ)) :=
  match l_points_prev, r_points_prev with
  | some lp, some rp =>
    match get_starting_points_previous lp, get_starting_points_previous rp with
    | some left_func, some right_func =>
      some (sliding_window_one_side img h w (left_func 720) (some left_func),
            sliding_window_one_side img h w (right_func 720) (some right_func))
    | _, _ => none
  | _, _ =>
    some (sliding_window_one_side img h w
            ((get_starting_points_histogram img h w 50).1 : ℚ) none,
          sliding_window_one_side img h w
            ((get_starting_points_histogram img h w 50).2 : ℚ) none)

/-! ## VideoLineDrawer.calc_curvative (lines 478-513) -/

/-- `ym_per_pix = 3/110` (line 454). -/
def ym_per_pix : ℚ := 3 / 110

/-- `xm_per_pix = 3.7/780` (line 455). -/
def xm_per_pix : ℚ := (37 / 10) / 780

/-- Integer-square-root approximation of `√q` for `q ≥ 0`, exact at 0,
standing in for the float square root inside the curvature formula (no
claim depends on its value away from 0). -/
def ratSqrt (q : ℚ) : ℚ :=
  ((Nat.sqrt (q.num.toNat * q.den) : ℤ) : ℚ) / (q.den : ℚ)

/-- `((1 + (2*a*y + b)**2)**1.5) / np.absolute(2*a)` (lines 506-507), the
1.5 power written as `z * √z`. -/
def curveRad (a b y : ℚ) : ℚ :=
  ((1 + (2 * a * y + b) ^ 2) * ratSqrt (1 + (2 * a * y + b) ^ 2)) / |2 * a|

/-- `VideoLineDrawer.calc_curvative` (lines 478-513): meter-space quadratic
fits of each side, curvature radii and bottom-row x positions evaluated at
`y = 720 * ym_per_pix`.  `none` models the `np.polyfit` error raised on an
empty pixel set. -/
def calc_curvative (l_points r_points : List (ℚ × ℚ)) : Option (ℚ × ℚ × ℚ × ℚ) :=
  match polyfit2 (l_points.map (fun p => p.2 * ym_per_pix))
                 (l_points.map (fun p => p.1 * xm_per_pix)),
        polyfit2 (r_points.map (fun p => p.2 * ym_per_pix))
                 (r_points.map (fun p => p.1 * xm_per_pix)) with
  | some lf, some rf =>
    some (curveRad lf.1 lf.2.1 (720 * ym_per_pix),
          curveRad rf.1 rf.2.1 (720 * ym_per_pix),
          lf.1 * (720 * ym_per_pix) ^ 2 + lf.2.1 * (720 * ym_per_pix) + lf.2.2,
          rf.1 * (720 * ym_per_pix) ^ 2 + rf.2.1 * (720 * ym_per_pix) + rf.2.2)
  | _, _ => none

/-! ## ImageThresholder (lines 115-246) -/

/-- Maximum of the absolute values over an `h × w` grid, `np.max(np.absolute(g))`. -/
def gridMaxAbs (g : ℕ → ℕ → ℤ) (h w : ℕ) : ℕ :=
  ((List.range h).map (fun y => ((List.range w).map (fun x => (g y x).natAbs)).foldl max 0)).foldl
    max 0

/-- The rescale-and-threshold tail of `ImageThresholder.abs_sobel_thresh`
(lines 140-145), taking the Sobel response grid as input:
`scaled = np.uint8(absolute*255/np.max(absolute))` followed by the
`[lo, hi]` window threshold.  The division is UNGUARDED in the source: when
the grid is flat the divisor `np.max(absolute)` is 0 and `0/0` produces a
NaN array (numpy `RuntimeWarning`) whose `uint8` cast is undefined —
modelled as `none` (the propagated fault).  In the non-degenerate case the
float-to-`uint8` cast truncates, which equals natural division here. -/
def abs_sobel_mask (sobel : ℕ → ℕ → ℤ) (h w : ℕ) (lo hi : ℕ) : Option (ℕ → ℕ → ℕ) :=
  if gridMaxAbs sobel h w = 0 then none
  else some (fun y x =>
    if lo ≤ (sobel y x).natAbs * 255 / gridMaxAbs sobel h w ∧
       (sobel y x).natAbs * 255 / gridMaxAbs sobel h w ≤ hi then 1 else 0)

/-- The magnitude-rescale-and-threshold tail of `ImageThresholder.mag_thresh`
(lines 164-170), taking the two Sobel response grids as input:
`mag = np.sqrt(sobelx**2 + sobely**2)` (float square root modelled by the
integer square root, exact at 0), then the same unguarded max-rescale and
window threshold as `abs_sobel_mask`. -/
def mag_mask (sobelx sobely : ℕ → ℕ → ℤ) (h w : ℕ) (lo hi : ℕ) : Option (ℕ → ℕ → ℕ) :=
  if gridMaxAbs (fun y x => (Nat.sqrt ((sobelx y x) ^ 2 + (sobely y x) ^ 2).toNat : ℤ)) h w = 0
  then none
  else some (fun y x =>
    if lo ≤ Nat.sqrt ((sobelx y x) ^ 2 + (sobely y x) ^ 2).toNat * 255 /
              gridMaxAbs (fun y2 x2 =>
                (Nat.sqrt ((sobelx y2 x2) ^ 2 + (sobely y2 x2) ^ 2).toNat : ℤ)) h w ∧
         Nat.sqrt ((sobelx y x) ^ 2 + (sobely y x) ^ 2).toNat * 255 /
              gridMaxAbs (fun y2 x2 =>
                (Nat.sqrt ((sobelx y2 x2) ^ 2 + (sobely y2 x2) ^ 2).toNat : ℤ)) h w ≤ hi
    then 1 else 0)

/-- The next scan row of the sliding-window loop,
`np.max((end_y - self.y_step, 0))` with `y_step = 100` (line 285). -/
def nextWindowY (y : ℤ) : ℤ := max (y - 100) 0

/-! ## VideoLineDrawer: per-frame smoothing state (lines 445-455, 628-645)

The four instance attributes `left_fit_prev`, `right_fit_prev`,
`left_curverad_prev`, `right_curverad_prev` are each `None` or a value,
so each is modelled as an individual `Option` field. -/

/-- A second-degree polynomial fit `x = a*y^2 + b*y + c`
(the three coefficients returned by `np.polyfit(..., 2)`). -/
structure Fit where
  a : ℚ
  b : ℚ
  c : ℚ
deriving DecidableEq, Repr

/-- The persistent smoothing state of `VideoLineDrawer`
(instance attributes, lines 446-449). -/
structure PrevState where
  left_fit_prev : Option Fit
  right_fit_prev : Option Fit
  left_curverad_prev : Option ℚ
  right_curverad_prev : Option ℚ
deriving DecidableEq, Repr

/-- The initial state: all four attributes are `None` (lines 446-449). -/
def initPrev : PrevState := ⟨none, none, none, none⟩

/-- The per-frame candidate measurement computed in `plot_image` before the
smoothing block: original-space fits (lines 625-626), curvatures and
bottom-row lane positions in meters (line 620). -/
structure Candidate where
  leftFit : Fit
  rightFit : Fit
  leftCurv : ℚ
  rightCurv : ℚ
  leftX : ℚ
  rightX : ℚ
deriving DecidableEq, Repr

/-- `line_width = right_x - left_x` (line 628), in meters. -/
def lineWidth (c : Candidate) : ℚ := c.rightX - c.leftX

/-- Elementwise blend `0.7 * old + 0.3 * new` of two polynomial fits
(numpy array arithmetic, lines 635-636). -/
def blendFit (o n : Fit) : Fit :=
  ⟨7/10 * o.a + 3/10 * n.a, 7/10 * o.b + 3/10 * n.b, 7/10 * o.c + 3/10 * n.c⟩

/-- The state holding exactly the raw values of candidate `c`
(first-frame acceptance, lines 641-644). -/
def stateOf (c : Candidate) : PrevState :=
  ⟨some c.leftFit, some c.rightFit, some c.leftCurv, some c.rightCurv⟩

/-- The smoothing block of `plot_image` (lines 631-645): returns the updated
state and the `estimated` flag (`true` = frame marked "estimated",
`false` = frame marked "tracked").  If the two fit attributes are set, the
candidate is blended in only when `3.6 < line_width < 4.0` (strict
comparisons, line 634); blending a set fit with an unset curvature would be
a Python `TypeError`, modelled as `none`.  Otherwise all four attributes
are assigned the raw candidate values. -/
def plot_image_smoothing (p : PrevState) (c : Candidate) : Option (PrevState × Bool) :=
  match p.left_fit_prev, p.right_fit_prev with
  | some lf, some rf =>
    if 18/5 < lineWidth c ∧ lineWidth c < 4 then
      match p.left_curverad_prev, p.right_curverad_prev with
      | some lc, some rc =>
        some (⟨some (blendFit lf c.leftFit), some (blendFit rf c.rightFit),
               some (7/10 * lc + 3/10 * c.leftCurv), some (7/10 * rc + 3/10 * c.rightCurv)⟩,
              false)
      | _, _ => none
    else
      some (p, true)
  | _, _ => some (stateOf c, false)

/-- Folding the smoothing update over a sequence of frame candidates;
`none` propagates a raised Python error. -/
def runFrames : PrevState → List Candidate → Option PrevState
  | p, [] => some p
  | p, c :: cs =>
    match plot_image_smoothing p c with
    | some q => runFrames q.1 cs
    | none => none

/-- All four smoothing attributes are set. -/
def fullSet (p : PrevState) : Prop :=
  ∃ lf rf lc rc, p = ⟨some lf, some rf, some lc, some rc⟩

/-- The four smoothing attributes are set or unset as a group. -/
def atomicState (p : PrevState) : Prop := p = initPrev ∨ fullSet p

/-! ## Supporting lemmas -/

lemma blendFit_self (f : Fit) : blendFit f f = f := by
  cases f
  simp only [blendFit, Fit.mk.injEq]
  refine ⟨by ring, by ring, by ring⟩

lemma fullSet_stateOf (c : Candidate) : fullSet (stateOf c) :=
  ⟨c.leftFit, c.rightFit, c.leftCurv, c.rightCurv, rfl⟩

lemma step_preserves_full (p : PrevState) (c : Candidate) (hp : fullSet p) :
    ∃ q b, plot_image_smoothing p c = some (q, b) ∧ fullSet q := by
  obtain ⟨lf, rf, lc, rc, rfl⟩ := hp
  by_cases hw : 18/5 < lineWidth c ∧ lineWidth c < 4
  · refine ⟨⟨some (blendFit lf c.leftFit), some (blendFit rf c.rightFit),
             some (7/10 * lc + 3/10 * c.leftCurv), some (7/10 * rc + 3/10 * c.rightCurv)⟩,
            false, ?_, ⟨_, _, _, _, rfl⟩⟩
    simp [plot_image_smoothing, hw]
  · exact ⟨_, true, by simp [plot_image_smoothing, hw], ⟨lf, rf, lc, rc, rfl⟩⟩

lemma runFrames_full (cs : List Candidate) :
    ∀ p, fullSet p → ∃ q, runFrames p cs = some q ∧ fullSet q := by
  induction cs with
  | nil => intro p hp; exact ⟨p, rfl, hp⟩
  | cons c cs ih =>
    intro p hp
    obtain ⟨q, b, hq, hfq⟩ := step_preserves_full p c hp
    obtain ⟨q2, hq2, hfq2⟩ := ih q hfq
    refine ⟨q2, ?_, hfq2⟩
    simp [runFrames, hq, hq2]

lemma first_frame_accepts (c : Candidate) :
    plot_image_smoothing initPrev c = some (stateOf c, false) := rfl

lemma nextWindowY_iterate : ∀ (n : ℕ) (y : ℤ), 0 ≤ y → y.toNat ≤ n →
    nextWindowY^[n] y = 0 := by
  intro n
  induction n with
  | zero =>
    intro y hy hn
    have h0 : y = 0 := by omega
    simp [h0]
  | succ n ih =>
    intro y hy hn
    rw [Function.iterate_succ_apply]
    apply ih
    · exact le_max_right _ _
    · simp only [nextWindowY]
      rcases le_total (y - 100) 0 with h' | h'
      · rw [max_eq_right h']; omega
      · rw [max_eq_left h']; omega

/-! ## Claims C1, C2, C3, C9, C10 -/

/-- The boundary state for C1: all four attributes set. -/
def sC1 : PrevState := ⟨some ⟨0, 0, 0⟩, some ⟨0, 0, 0⟩, some 0, some 0⟩

/-- The boundary candidate for C1: `line_width` exactly 3.6 m. -/
def cC1 : Candidate := ⟨⟨1, 0, 0⟩, ⟨1, 0, 0⟩, 1, 1, 0, 18/5⟩

/-- Claim C1, counterexample: at `laneWidth = 3.6 m` (inside the claim's
inclusive band `3.6 ≤ w ≤ 4.0`) the code takes the rejection branch
(line 634 uses strict `>`/`<`): the state is retained unchanged and the
frame is marked "estimated" (`true`), not blended and "tracked". -/
theorem c1_boundary_counterexample :
    (18/5 ≤ lineWidth cC1 ∧ lineWidth cC1 ≤ 4) ∧
    plot_image_smoothing sC1 cC1 = some (sC1, true) ∧
    plot_image_smoothing sC1 cC1 ≠
      some (⟨some (blendFit ⟨0, 0, 0⟩ cC1.leftFit), some (blendFit ⟨0, 0, 0⟩ cC1.rightFit),
             some (7/10 * 0 + 3/10 * cC1.leftCurv), some (7/10 * 0 + 3/10 * cC1.rightCurv)⟩,
            false) := by
  have hwid : lineWidth cC1 = 18/5 := by norm_num [lineWidth, cC1]
  have hc : ¬(18/5 < lineWidth cC1 ∧ lineWidth cC1 < 4) := by
    rw [hwid]; norm_num
  have hstep : plot_image_smoothing sC1 cC1 = some (sC1, true) := by
    simp [plot_image_smoothing, sC1, hc]
  refine ⟨⟨by rw [hwid], by rw [hwid]; norm_num⟩, hstep, ?_⟩
  rw [hstep]
  simp

/-- Claim C1 (amended): for every frame after the first accepted one, if
`3.6 < laneWidth < 4.0` STRICTLY, then each of the four state fields is
replaced by `0.7·old + 0.3·candidate` and the frame is marked "tracked"
(`estimated = false`). -/
theorem c1_blend_strict_band (lf rf : Fit) (lc rc : ℚ) (c : Candidate)
    (h1 : 18/5 < lineWidth c) (h2 : lineWidth c < 4) :
    plot_image_smoothing ⟨some lf, some rf, some lc, some rc⟩ c =
      some (⟨some (blendFit lf c.leftFit), some (blendFit rf c.rightFit),
             some (7/10 * lc + 3/10 * c.leftCurv), some (7/10 * rc + 3/10 * c.rightCurv)⟩,
            false) := by
  simp [plot_image_smoothing, h1, h2]

/-- A candidate with `line_width = 3.8 m`, strictly inside the band. -/
def cC1w : Candidate := ⟨⟨1, 2, 3⟩, ⟨4, 5, 6⟩, 10, 20, 0, 19/5⟩

/-- Witness for `c1_blend_strict_band` at `laneWidth = 3.8 m`. -/
theorem c1_blend_strict_band_witness :
    plot_image_smoothing ⟨some ⟨0, 0, 0⟩, some ⟨0, 0, 0⟩, some 0, some 0⟩ cC1w =
      some (⟨some (blendFit ⟨0, 0, 0⟩ cC1w.leftFit), some (blendFit ⟨0, 0, 0⟩ cC1w.rightFit),
             some (7/10 * 0 + 3/10 * cC1w.leftCurv), some (7/10 * 0 + 3/10 * cC1w.rightCurv)⟩,
            false) :=
  c1_blend_strict_band ⟨0, 0, 0⟩ ⟨0, 0, 0⟩ 0 0 cC1w (by norm_num [lineWidth, cC1w])
    (by norm_num [lineWidth, cC1w])

/-- Claim C2: a frame whose candidate `laneWidth` lies outside the
acceptance band (strictly below 3.6 m or strictly above 4.0 m) leaves all
four state fields identical to their pre-frame values and is marked
"estimated" (`true`). -/
theorem c2_outlier_rejection (lf rf : Fit) (lc rc : ℚ) (c : Candidate)
    (h : lineWidth c < 18/5 ∨ 4 < lineWidth c) :
    plot_image_smoothing ⟨some lf, some rf, some lc, some rc⟩ c =
      some (⟨some lf, some rf, some lc, some rc⟩, true) := by
  have hc : ¬(18/5 < lineWidth c ∧ lineWidth c < 4) := by
    rcases h with h | h
    · rintro ⟨a, -⟩; linarith
    · rintro ⟨-, b⟩; linarith
  simp [plot_image_smoothing, hc]

/-- A candidate with `line_width = 5.0 m`, outside the band. -/
def cC2w : Candidate := ⟨⟨1, 1, 1⟩, ⟨1, 1, 1⟩, 1, 1, 0, 5⟩

/-- Witness for `c2_outlier_rejection` at `laneWidth = 5.0 m`. -/
theorem c2_outlier_rejection_witness :
    plot_image_smoothing ⟨some ⟨9, 8, 7⟩, some ⟨6, 5, 4⟩, some 3, some 2⟩ cC2w =
      some (⟨some ⟨9, 8, 7⟩, some ⟨6, 5, 4⟩, some 3, some 2⟩, true) :=
  c2_outlier_rejection ⟨9, 8, 7⟩ ⟨6, 5, 4⟩ 3 2 cC2w (by norm_num [lineWidth, cC2w])

/-- Claim C3: starting from the empty state, the first frame's raw
candidate is accepted unconditionally and marked "tracked" (the
UNINITIALIZED→TRACKING transition); after any frame sequence the state is
set or unset as an atomic group (never partially); and after at least one
frame the state is fully set and remains so for the rest of the video
(the update never fails and never clears a field). -/
theorem c3_atomic_state_tracking : ∀ (cs : List Candidate) (c : Candidate),
    plot_image_smoothing initPrev c = some (stateOf c, false) ∧
    (∃ q, runFrames initPrev cs = some q ∧ atomicState q) ∧
    (∃ q2, runFrames initPrev (c :: cs) = some q2 ∧ fullSet q2) := by
  intro cs c
  refine ⟨rfl, ?_, ?_⟩
  · cases cs with
    | nil => exact ⟨initPrev, rfl, Or.inl rfl⟩
    | cons c0 cs0 =>
      obtain ⟨q, hq, hfq⟩ := runFrames_full cs0 (stateOf c0) (fullSet_stateOf c0)
      refine ⟨q, ?_, Or.inr hfq⟩
      rw [show runFrames initPrev (c0 :: cs0) = runFrames (stateOf c0) cs0 from rfl, hq]
  · obtain ⟨q, hq, hfq⟩ := runFrames_full cs (stateOf c) (fullSet_stateOf c)
    refine ⟨q, ?_, hfq⟩
    rw [show runFrames initPrev (c :: cs) = runFrames (stateOf c) cs from rfl, hq]

/-- Claim C9: with the four-field state `S` and a candidate identical to
`S` whose `laneWidth` lies in the (inclusive) band, the update maps `S` to
`S` (interior: `0.7·S + 0.3·S = S`; boundary: retention), and applying the
policy twice with the identical candidate also leaves `S` unchanged. -/
theorem c9_blend_idempotent (lf rf : Fit) (lc rc lx rx : ℚ)
    (_h1 : 18/5 ≤ rx - lx) (_h2 : rx - lx ≤ 4) :
    (∃ b, plot_image_smoothing ⟨some lf, some rf, some lc, some rc⟩
            ⟨lf, rf, lc, rc, lx, rx⟩ =
          some (⟨some lf, some rf, some lc, some rc⟩, b)) ∧
    runFrames ⟨some lf, some rf, some lc, some rc⟩
        [⟨lf, rf, lc, rc, lx, rx⟩, ⟨lf, rf, lc, rc, lx, rx⟩] =
      some ⟨some lf, some rf, some lc, some rc⟩ := by
  have hl : 7/10 * lc + 3/10 * lc = lc := by ring
  have hr : 7/10 * rc + 3/10 * rc = rc := by ring
  have hstep : ∃ b, plot_image_smoothing ⟨some lf, some rf, some lc, some rc⟩
      ⟨lf, rf, lc, rc, lx, rx⟩ = some (⟨some lf, some rf, some lc, some rc⟩, b) := by
    by_cases hw : 18/5 < rx - lx ∧ rx - lx < 4
    · refine ⟨false, ?_⟩
      simp [plot_image_smoothing, lineWidth, hw, blendFit_self, hl, hr]
    · refine ⟨true, ?_⟩
      simp [plot_image_smoothing, lineWidth, hw]
  refine ⟨hstep, ?_⟩
  obtain ⟨b, hb1⟩ := hstep
  simp [runFrames, hb1]

/-- Witness for `c9_blend_idempotent` at `laneWidth = 3.8 m`. -/
theorem c9_blend_idempotent_witness :
    (∃ b, plot_image_smoothing ⟨some ⟨1, 2, 3⟩, some ⟨4, 5, 6⟩, some 100, some 200⟩
            ⟨⟨1, 2, 3⟩, ⟨4, 5, 6⟩, 100, 200, 0, 19/5⟩ =
          some (⟨some ⟨1, 2, 3⟩, some ⟨4, 5, 6⟩, some 100, some 200⟩, b)) ∧
    runFrames ⟨some ⟨1, 2, 3⟩, some ⟨4, 5, 6⟩, some 100, some 200⟩
        [⟨⟨1, 2, 3⟩, ⟨4, 5, 6⟩, 100, 200, 0, 19/5⟩,
         ⟨⟨1, 2, 3⟩, ⟨4, 5, 6⟩, 100, 200, 0, 19/5⟩] =
      some ⟨some ⟨1, 2, 3⟩, some ⟨4, 5, 6⟩, some 100, some 200⟩ :=
  c9_blend_idempotent ⟨1, 2, 3⟩ ⟨4, 5, 6⟩ 100 200 0 (19/5) (by norm_num) (by norm_num)

/-- Claim C10: each sliding-window step replaces the current scan row `y`
by `max (y - 100) 0`, which is strictly smaller and non-negative whenever
`y > 0`, so iterating the row update from any positive `y` reaches 0 (the
loop guard `current_step_y > 0` fails) after at most `y` steps. -/
theorem c10_scan_terminates : ∀ (img : ℕ → ℕ → ℕ) (hgt wid : ℕ) (x : ℚ) (r : ℕ) (y : ℤ),
    0 < y →
    (sliding_window_step img hgt wid x y r).2 = nextWindowY y ∧
    nextWindowY y < y ∧ 0 ≤ nextWindowY y ∧ nextWindowY^[y.toNat] y = 0 := by
  intro img hgt wid x r y hy
  refine ⟨rfl, ?_, le_max_right _ _, nextWindowY_iterate y.toNat y (le_of_lt hy) le_rfl⟩
  simp only [nextWindowY]
  rcases le_total (y - 100) 0 with h' | h'
  · rw [max_eq_right h']; omega
  · rw [max_eq_left h']; omega

/-- Witness for `c10_scan_terminates` at the frame height `y = 720`. -/
theorem c10_scan_terminates_witness :
    (sliding_window_step (fun _ _ => 0) 1 1 0 720 100).2 = nextWindowY 720 ∧
    nextWindowY 720 < 720 ∧ 0 ≤ nextWindowY 720 ∧ nextWindowY^[(720 : ℤ).toNat] 720 = 0 :=
  c10_scan_terminates (fun _ _ => 0) 1 1 0 100 720 (by decide)

/-! ## Claims C5 and C6 -/

lemma pyInt_intCast (k : ℤ) : pyInt ((k : ℤ) : ℚ) = k := by
  unfold pyInt
  split_ifs with hk
  · exact_mod_cast Int.floor_intCast k
  · rw [show (-((k : ℤ) : ℚ)) = (((-k : ℤ) : ℤ) : ℚ) by push_cast; ring, Int.floor_intCast]
    ring

/-- The vote array specialised to an integer `start_x` (the `int()`
truncations become the identity). -/
def votesZ (img : ℕ → ℕ → ℕ) (h w : ℕ) (sx : ℤ) (end_y : ℤ) (r : ℕ) : List ℕ :=
  (List.range (2 * r)).map (fun i =>
    windowSum img h w (max (end_y - 100) 0) end_y
      (sx + ((i : ℤ) - (r : ℤ)) - 30) (sx + ((i : ℤ) - (r : ℤ)) + 30))

lemma votes_intCast (img : ℕ → ℕ → ℕ) (h w : ℕ) (sx end_y : ℤ) (r : ℕ) :
    votes img h w ((sx : ℤ) : ℚ) end_y r = votesZ img h w sx end_y r := by
  unfold votes votesZ
  refine List.map_congr_left (fun i _ => ?_)
  have e1 : (((sx : ℤ) : ℚ) + (((i : ℤ) - (r : ℤ) : ℤ) : ℚ) - 30) =
      (((sx + ((i : ℤ) - (r : ℤ)) - 30 : ℤ) : ℤ) : ℚ) := by push_cast; ring
  have e2 : (((sx : ℤ) : ℚ) + (((i : ℤ) - (r : ℤ) : ℤ) : ℚ) + 30) =
      (((sx + ((i : ℤ) - (r : ℤ)) + 30 : ℤ) : ℤ) : ℚ) := by push_cast; ring
  rw [e1, e2, pyInt_intCast, pyInt_intCast]

/-- Claim C5 (the code at the failing input): feeding uniformly flat
gradients through the rescale of `abs_sobel_thresh` and `mag_thresh`
(with the thresholds used by `ImageThresholder.combined`, lines 233-235)
hits the unguarded division by `np.max(...) = 0` and propagates the fault
(`none`); no all-zero mask is produced. -/
theorem c5_flat_gradient_divide_by_zero :
    abs_sobel_mask (fun _ _ => 0) 4 4 50 200 = none ∧
    mag_mask (fun _ _ => 0) (fun _ _ => 0) 4 4 10 80 = none := by
  constructor <;> rfl

/-- A mask with a single lit pixel at row 0, column 119 (pure noise). -/
def imgC6a : ℕ → ℕ → ℕ := fun y x => if y = 0 ∧ x = 119 then 1 else 0

/-- A mask with a solid 25-pixel segment in row 0, columns 80-104. -/
def imgC6b : ℕ → ℕ → ℕ := fun y x => if y = 0 ∧ 80 ≤ x ∧ x ≤ 104 then 1 else 0

/-- Claim C6 (the code at the failing input): the source compares
`np.argmax(arr)` — the INDEX of the first peak — against the noise floor
20, not the peak VALUE.  Left pair: a single noise pixel gives peak value
1 (far below the floor) at offset index 90, yet the window moves from
x = 100 to x = 90.  Right pair: a solid 25-pixel segment gives peak value
25 (above the floor) at offset index 0 (position x = 100), yet the window
stays at x = 200 because the index 0 is below 20. -/
theorem c6_argmax_noise_floor_divergence :
    ((sliding_window_step imgC6a 1 130 100 1 100).1 = 90 ∧
     maxList (votes imgC6a 1 130 100 1 100) = 1) ∧
    ((sliding_window_step imgC6b 1 400 200 1 100).1 = 200 ∧
     maxList (votes imgC6b 1 400 200 1 100) = 25) := by
  have ha : votes imgC6a 1 130 (100 : ℚ) 1 100 = votesZ imgC6a 1 130 100 1 100 := by
    rw [show (100 : ℚ) = (((100 : ℤ) : ℤ) : ℚ) by norm_num]
    exact votes_intCast imgC6a 1 130 100 1 100
  have hb : votes imgC6b 1 400 (200 : ℚ) 1 100 = votesZ imgC6b 1 400 200 1 100 := by
    rw [show (200 : ℚ) = (((200 : ℤ) : ℤ) : ℚ) by norm_num]
    exact votes_intCast imgC6b 1 400 200 1 100
  have ha2 : argmaxList (votesZ imgC6a 1 130 100 1 100) = 90 := by decide
  have ha3 : maxList (votesZ imgC6a 1 130 100 1 100) = 1 := by decide
  have hb2 : argmaxList (votesZ imgC6b 1 400 200 1 100) = 0 := by decide
  have hb3 : maxList (votesZ imgC6b 1 400 200 1 100) = 25 := by decide
  refine ⟨⟨?_, ?_⟩, ⟨?_, ?_⟩⟩
  · simp only [sliding_window_step, ha, ha2]
    rw [if_neg (by norm_num)]
    norm_num
  · rw [ha]; exact ha3
  · simp only [sliding_window_step, hb, hb2]
    rw [if_pos (by norm_num)]
  · rw [hb]; exact hb3

/-! ## Claim C7 -/

/-- A 1280-wide, 2-row mask whose bottom-half density is concentrated at
`x = 200` and `x = 1000` (one lit pixel each in the bottom row). -/
def maskC7 : ℕ → ℕ → ℕ := fun y x => if y = 1 ∧ (x = 200 ∨ x = 1000) then 1 else 0

/-- Closed form of the C7 sliding-peak value at window start `i`: the
number of the two lit columns covered by the window `[i, i + 100)`. -/
def gC7 (i : ℕ) : ℕ :=
  (if i ≤ 200 ∧ 200 < i + 100 then 1 else 0) + (if i ≤ 1000 ∧ 1000 < i + 100 then 1 else 0)

lemma histogramCol_maskC7 (j : ℕ) :
    histogramCol maskC7 2 j = if j = 200 ∨ j = 1000 then 1 else 0 := by
  have hr : List.range' (2 / 2) (2 - 2 / 2) = [1] := by decide
  unfold histogramCol
  rw [hr]
  simp [maskC7]

lemma indicator2_sum : ∀ (n a : ℕ),
    ((List.range' a n).map (fun j => if j = 200 ∨ j = 1000 then (1 : ℕ) else 0)).sum =
      (if a ≤ 200 ∧ 200 < a + n then 1 else 0) +
      (if a ≤ 1000 ∧ 1000 < a + n then 1 else 0) := by
  intro n
  induction n with
  | zero =>
    intro a
    simp only [List.range'_zero, List.map_nil, List.sum_nil]
    split_ifs <;> omega
  | succ n ih =>
    intro a
    rw [List.range'_succ, List.map_cons, List.sum_cons, ih (a + 1)]
    split_ifs <;> omega

lemma slidingPeak_maskC7 (i : ℕ) (hi : i < 1280) :
    slidingPeak maskC7 2 1280 50 i = gC7 i := by
  have hslice : npSlice 1280 (i : ℤ) ((i : ℤ) + 2 * (50 : ℕ)) =
      List.range' i (min (i + 100) 1280 - i) := by
    unfold npSlice npNorm
    rw [if_neg (by omega : ¬((i : ℤ) < 0)),
        if_neg (by push_cast; omega : ¬((i : ℤ) + 2 * ((50 : ℕ) : ℤ) < 0))]
    have h1 : min (i : ℤ).toNat 1280 = i := by omega
    have h2 : min ((i : ℤ) + 2 * ((50 : ℕ) : ℤ)).toNat 1280 = min (i + 100) 1280 := by
      push_cast; omega
    rw [h1, h2]
  unfold slidingPeak
  rw [hslice]
  have hcols : (List.range' i (min (i + 100) 1280 - i)).map (fun j => histogramCol maskC7 2 j) =
      (List.range' i (min (i + 100) 1280 - i)).map
        (fun j => if j = 200 ∨ j = 1000 then (1 : ℕ) else 0) :=
    List.map_congr_left (fun j _ => histogramCol_maskC7 j)
  rw [hcols, indicator2_sum]
  unfold gC7
  rcases le_total (i + 100) 1280 with hmin | hmin
  · rw [min_eq_left hmin]
    split_ifs <;> omega
  · rw [min_eq_right hmin]
    split_ifs <;> omega

lemma peaksC7_take :
    (((List.range 1280).map (slidingPeak maskC7 2 1280 50)).take 640) =
      (List.range 640).map gC7 := by
  rw [← List.map_take, List.take_range]
  refine List.map_congr_left (fun i hi => ?_)
  have : i < 640 := by
    have := List.mem_range.mp (by simpa using hi)
    omega
  exact slidingPeak_maskC7 i (by omega)

lemma peaksC7_drop :
    ((((List.range 1280).map (slidingPeak maskC7 2 1280 50)).drop 640).dropLast) =
      (List.range' 640 639).map gC7 := by
  rw [← List.map_drop, show (List.range 1280).drop 640 = List.range' 640 640 from by decide,
      ← List.map_dropLast, show (List.range' 640 640).dropLast = List.range' 640 639 from by decide]
  refine List.map_congr_left (fun i hi => ?_)
  have : 640 ≤ i ∧ i < 1279 := by
    have := List.mem_range'_1.mp hi
    omega
  exact slidingPeak_maskC7 i (by omega)

lemma seedsC7 : get_starting_points_histogram maskC7 2 1280 50 = (101, 901) := by
  show ((argmaxList (((List.range 1280).map (slidingPeak maskC7 2 1280 50)).take 640)),
        (argmaxList ((((List.range 1280).map (slidingPeak maskC7 2 1280 50)).drop 640).dropLast)
          + 640)) = (101, 901)
  rw [peaksC7_take, peaksC7_drop]
  rw [Prod.mk.injEq]
  exact ⟨by decide, by decide⟩

/-- Claim C7, counterexample: on the mask with bottom-half density exactly
at `x = 200` and `x = 1000`, the seeds returned are `(101, 901)` — each is
the START index of the first window of width 100 covering the lit column,
not the column position — so the seeds do not equal `(200, 1000)` (they
are 99 px off). -/
theorem c7_seed_counterexample :
    get_starting_points_histogram maskC7 2 1280 50 = (101, 901) ∧
    get_starting_points_histogram maskC7 2 1280 50 ≠ (200, 1000) := by
  refine ⟨seedsC7, ?_⟩
  rw [seedsC7]
  decide

/-- Claim C7 (amended): the seeding computes the bottom-half projection
histogram, sums it over sliding windows `[i, i + 2r)`, and returns the
argmax WINDOW-START location in each half (the right argmax omitting the
final column); on the concentrated mask the seeds are `(101, 901)`, i.e.
they equal `(200, 1000)` only up to the window width `2r = 100` (each seed
lies within 100 px to the left of its target). -/
theorem c7_seed_amended :
    (∀ (img : ℕ → ℕ → ℕ) (h w r : ℕ),
      get_starting_points_histogram img h w r =
        (argmaxList (((List.range w).map (slidingPeak img h w r)).take (w / 2)),
         argmaxList ((((List.range w).map (slidingPeak img h w r)).drop (w / 2)).dropLast)
           + w / 2)) ∧
    get_starting_points_histogram maskC7 2 1280 50 = (101, 901) ∧
    200 - 101 ≤ 100 ∧ 1000 - 901 ≤ 100 := by
  exact ⟨fun img h w r => rfl, seedsC7, by norm_num, by norm_num⟩

/-! ## Claim C4 -/

lemma windowPixels_zero (img : ℕ → ℕ → ℕ) (h w : ℕ) (hz : ∀ y x, img y x = 0)
    (nx : ℚ) (ny cy : ℤ) : windowPixels img h w nx ny cy = [] := by
  simp [windowPixels, hz]

lemma oneSideAux_zero (img : ℕ → ℕ → ℕ) (h w : ℕ) (hz : ∀ y x, img y x = 0) :
    ∀ (n : ℕ) (f : Option (ℤ → ℚ)) (x : ℚ) (y : ℤ),
      (oneSideAux img h w f n x y).flatMap WindowStep.pixels = [] := by
  intro n
  induction n with
  | zero => intro f x y; simp [oneSideAux]
  | succ n ih =>
    intro f x y
    simp only [oneSideAux]
    by_cases hy : 0 < y
    · rw [if_pos hy]
      rw [List.flatMap_cons, windowPixels_zero img h w hz, ih, List.nil_append]
    · rw [if_neg hy]
      simp

lemma sliding_window_one_side_zero (img : ℕ → ℕ → ℕ) (h w : ℕ)
    (hz : ∀ y x, img y x = 0) (x0 : ℚ) (f : Option (ℤ → ℚ)) :
    sliding_window_one_side img h w x0 f = [] :=
  oneSideAux_zero img h w hz _ f x0 _

lemma sliding_window_zero (img : ℕ → ℕ → ℕ) (h w : ℕ) (hz : ∀ y x, img y x = 0) :
    sliding_window img h w none none = some ([], []) := by
  simp only [sliding_window]
  rw [sliding_window_one_side_zero img h w hz, sliding_window_one_side_zero img h w hz]

/-- Claim C4, counterexample: on the all-zero 720×1280 mask the search
does return an empty `PixelSet` for each side, but passing those empties
on to `calc_curvative` (exactly what `plot_image` does on line 620) makes
`np.polyfit` raise `TypeError` on an empty vector (modelled `none`), so
processing the frame DOES raise an error, contrary to the claim. -/
theorem c4_empty_mask_counterexample :
    sliding_window (fun _ _ => 0) 720 1280 none none = some ([], []) ∧
    calc_curvative [] [] = none :=
  ⟨sliding_window_zero (fun _ _ => 0) 720 1280 (fun _ _ => rfl), rfl⟩

/-- Claim C4 (amended): for every all-zero mask the lane search returns an
empty `PixelSet` for each side (under any seeding and any prior), this
empty result is propagated to the lane model, and there the curvature
computation fails — `np.polyfit` on the empty vectors raises — rather than
completing without error. -/
theorem c4_empty_mask_amended (img : ℕ → ℕ → ℕ) (h w : ℕ) (hz : ∀ y x, img y x = 0) :
    sliding_window img h w none none = some ([], []) ∧
    (∀ (x0 : ℚ) (f : Option (ℤ → ℚ)), sliding_window_one_side img h w x0 f = []) ∧
    calc_curvative [] [] = none :=
  ⟨sliding_window_zero img h w hz,
   fun x0 f => sliding_window_one_side_zero img h w hz x0 f, rfl⟩

/-- Witness for `c4_empty_mask_amended` on a concrete all-zero 2×2 mask. -/
theorem c4_empty_mask_amended_witness :
    sliding_window (fun _ _ => 0) 2 2 none none = some ([], []) ∧
    (∀ (x0 : ℚ) (f : Option (ℤ → ℚ)), sliding_window_one_side (fun _ _ => 0) 2 2 x0 f = []) ∧
    calc_curvative [] [] = none :=
  c4_empty_mask_amended (fun _ _ => 0) 2 2 (fun _ _ => rfl)

/-! ## Claim C8 -/

lemma oneSideAux_prior (img : ℕ → ℕ → ℕ) (hgt wid : ℕ) (f : ℤ → ℚ) :
    ∀ (n : ℕ) (x : ℚ) (y : ℤ) (t : WindowStep),
      t ∈ oneSideAux img hgt wid (some f) n x y → t.sx = f t.y ∧ t.r = 50 := by
  intro n
  induction n with
  | zero => intro x y t ht; simp [oneSideAux] at ht
  | succ n ih =>
    intro x y t ht
    simp only [oneSideAux] at ht
    by_cases hy : 0 < y
    · rw [if_pos hy] at ht
      rcases List.mem_cons.mp ht with h | h
      · subst h; exact ⟨rfl, rfl⟩
      · exact ih _ _ t h
    · rw [if_neg hy] at ht
      simp at ht

/-- Claim C8: in the prior-guided search, every window step's expected x
is the prior fit evaluated at the step's current y and every step uses the
narrowed search radius 50 (instead of the default 100); and
`sliding_window` with previous points seeds each side at the polyfit
closure evaluated at `y = 720` and passes that closure down as the
per-step prior. -/
theorem c8_prior_guided_search : ∀ (img : ℕ → ℕ → ℕ) (hgt wid : ℕ) (f : ℤ → ℚ) (x0 : ℚ),
    (∀ t ∈ oneSideSteps img hgt wid x0 (some f), t.sx = f t.y ∧ t.r = 50) ∧
    (∀ lp rp : List (ℚ × ℚ),
      sliding_window img hgt wid (some lp) (some rp) =
        (get_starting_points_previous lp).bind (fun lf =>
          (get_starting_points_previous rp).map (fun rf =>
            (sliding_window_one_side img hgt wid (lf 720) (some lf),
             sliding_window_one_side img hgt wid (rf 720) (some rf))))) := by
  intro img hgt wid f x0
  refine ⟨fun t ht => oneSideAux_prior img hgt wid f _ _ _ t ht, fun lp rp => ?_⟩
  cases h1 : get_starting_points_previous lp <;> cases h2 : get_starting_points_previous rp <;>
    simp [sliding_window, h1, h2]

/-- The all-zero 1×1 mask used by the C8 witness. -/
def zeroImgC8 : ℕ → ℕ → ℕ := fun _ _ => 0

/-- A constant prior-fit closure for the C8 witness. -/
def fC8 : ℤ → ℚ := fun _ => 0

/-- The single window step of the C8 witness trace. -/
def tC8 : WindowStep :=
  ⟨fC8 1, 50, 1,
   windowPixels zeroImgC8 1 1 (sliding_window_step zeroImgC8 1 1 (fC8 1) 1 50).1
     (sliding_window_step zeroImgC8 1 1 (fC8 1) 1 50).2 1⟩

/-- Witness for `c8_prior_guided_search` on the 1×1 mask: the only window
step of the prior-guided trace has expected x `fC8 1` and radius 50. -/
theorem c8_prior_guided_search_witness : tC8.sx = fC8 tC8.y ∧ tC8.r = 50 :=
  (c8_prior_guided_search zeroImgC8 1 1 fC8 0).1 tC8 (List.mem_cons_self tC8 [])

end ProcessVideo
